import Mathlib

/-
  Verification of the satelites-arg-web pass predictor and related routines.

  The satellite propagation library (satellite.js), SunCalc and the DOM are
  external to the repository; their outputs are modelled as oracle inputs
  (per-tick samples, per-object propagation results).  Every number the
  JavaScript engine can produce is an IEEE double, hence a rational, so the
  per-sample quantities that the repository code only compares and copies
  (elevation, azimuth) are modelled over the rationals and timestamps over
  the integers; quantities the repository code feeds through transcendental
  functions (haversine distance, magnitudes, illumination) are modelled over
  the reals.
-/

namespace SatArg

/-! ## Pass scan: calculateVisiblePasses (src/script.js lines 3980 to 4061)

    One loop iteration propagates the satellite and derives elevation,
    azimuth and the visibility predicate (observer dark and satellite lit).
    A sample is modelled as an optional record: none models a propagation
    throw caught by the per-sample try block. -/

/-- One successful per-tick sample: geometric elevation in degrees, the
    visibility predicate (observer in darkness and satellite sunlit), and the
    azimuth in radians. -/
structure SampleOut where
  elevation : ℚ
  visible : Bool
  az : ℚ
deriving DecidableEq

/-- A buffered point of the current pass, as pushed into currentPass.points:
    time in ms, elevation in degrees, the visibility flag, the azimuth. -/
structure PassPoint where
  time : ℤ
  elevation : ℚ
  isVisible : Bool
  az : ℚ
deriving DecidableEq

/-- The currentPass object of the scan.  Fields that JavaScript initialises
    to null are options.  The field named end in the source is endT here
    because end is reserved in Lean. -/
structure JsPass where
  start : ℤ
  endT : Option ℤ
  visibleStart : Option ℤ
  visibleEnd : Option ℤ
  maxElevation : ℚ
  points : List PassPoint
  hasVisibleSegment : Bool
  isPast : Bool
  startAz : Option ℚ := none
  endAz : Option ℚ := none
deriving DecidableEq

/-- Sample time of tick k: the loop steps in 1/60 minute, so sample k lies at
    base + k seconds scanning forward and base - k seconds scanning back. -/
def tick (future : Bool) (base : ℤ) (k : ℕ) : ℤ :=
  base + (if future then (k : ℤ) else -(k : ℤ)) * 1000

/-- The object literal created when elevation first exceeds 10 degrees. -/
def newPass (future : Bool) (time : ℤ) : JsPass :=
  { start := time, endT := none, visibleStart := none, visibleEnd := none,
    maxElevation := 0, points := [], hasVisibleSegment := false,
    isPast := !future }

/-- The body of the in-pass block: push the point, and when it is visible
    update visibleStart, visibleEnd, hasVisibleSegment and maxElevation. -/
def pushPoint (c : JsPass) (time : ℤ) (s : SampleOut) : JsPass :=
  let c1 := { c with points := c.points ++ [⟨time, s.elevation, s.visible, s.az⟩] }
  if s.visible then
    { c1 with
      visibleStart := match c1.visibleStart with
        | none => some time
        | some v => some v
      visibleEnd := some time
      hasVisibleSegment := true
      maxElevation := if c1.maxElevation < s.elevation then s.elevation
        else c1.maxElevation }
  else c1

/-- The transition block entered when elevation drops under 10 degrees:
    set end to the closing time, and when emitting trim start and end to the
    first and last visible times and derive the azimuth endpoints via find
    over point times and the time-window filter. -/
def finalizePass (c : JsPass) (time : ℤ) : JsPass :=
  let c1 := { c with endT := some time }
  match c1.visibleStart, c1.visibleEnd with
  | some vs, some ve =>
    let c2 := { c1 with start := vs, endT := some ve }
    let fvp := c2.points.find? (fun p => p.time == c2.start)
    let avp := c2.points.filter (fun p => decide (c2.start ≤ p.time) && decide (p.time ≤ ve))
    { c2 with startAz := fvp.map (·.az), endAz := avp.getLast?.map (·.az) }
  | _, _ => c1

/-- The conditional emission at the end of a pass: the pass is appended to
    finalPasses exactly when hasVisibleSegment holds and the buffer holds
    more than one point. -/
def exitStep (acc : List JsPass) (c2 : JsPass) (time : ℤ) : List JsPass :=
  if c2.hasVisibleSegment && decide (1 < c2.points.length)
    then acc ++ [finalizePass c2 time] else acc

/-- The scan loop.  The none sample models the catch branch: inPass is
    cleared and the loop continues at the next tick.  In the future
    direction the loop breaks once the emitted count reaches maxPasses. -/
def scanAux (future : Bool) (base : ℤ) (maxPasses : ℕ) :
    List (Option SampleOut) → ℕ → Option JsPass → List JsPass → List JsPass
  | [], _, _, acc => acc
  | none :: rest, k, _, acc => scanAux future base maxPasses rest (k + 1) none acc
  | some s :: rest, k, cur, acc =>
    let time := tick future base k
    let cur1 : Option JsPass :=
      match cur with
      | none => if 10 < s.elevation then some (newPass future time) else none
      | some c => some c
    match cur1 with
    | none => scanAux future base maxPasses rest (k + 1) none acc
    | some c =>
      let c2 := pushPoint c time s
      if s.elevation < 10 then
        if future && decide (maxPasses ≤ (exitStep acc c2 time).length)
          then exitStep acc c2 time
        else scanAux future base maxPasses rest (k + 1) none (exitStep acc c2 time)
      else
        scanAux future base maxPasses rest (k + 1) (some c2) acc

/-- calculateVisiblePasses, abstracted over the per-tick sample stream. -/
def calculateVisiblePasses (future : Bool) (base : ℤ) (maxPasses : ℕ)
    (samples : List (Option SampleOut)) : List JsPass :=
  scanAux future base maxPasses samples 0 none []

/-! ## Batched search sessions (src/script.js lines 4428 to 4578)

    startPassCalculation initialises App.state.passCalculation;
    calculateNextPassBatch runs one batch (its body is a single JavaScript
    task, so the abort flag cannot change while it runs);
    updateViewMoreButton writes the session cache exactly when the session
    is no longer in progress, the render target is the best-passes view and
    observer coordinates are set; stopPassCalculation aborts the controller.
    The passes a batch finds are a function of daysCalculated at its start,
    modelled by the oracle batches. -/

/-- A pass accumulated by a session: its start time in ms and a tag letting
    distinct passes with equal start times be told apart. -/
structure BPass where
  start : ℤ
  tag : ℕ
deriving DecidableEq

/-- Comparator of the two sort calls: ascending start times. -/
def bLe (a b : BPass) : Prop := a.start ≤ b.start

instance : DecidableRel bLe := fun a b => inferInstanceAs (Decidable (a.start ≤ b.start))

/-- The sort call on a pass list (Array.prototype.sort with the comparator
    a.start - b.start: a stable sort by start). -/
def sortByStart (l : List BPass) : List BPass := List.insertionSort bLe l

/-- Fixed session configuration: daysPerBatch, passCalculationMaxDays,
    whether the render target is bestPasses, whether observerCoords is set. -/
structure PCConfig where
  batchSize : ℕ
  maxDays : ℕ
  renderBest : Bool
  hasCoords : Bool

/-- The passCalculation session state. -/
structure PCState where
  aborted : Bool
  inProgress : Bool
  firstPassFound : Bool
  daysCalculated : ℕ
  allFoundPasses : List BPass
deriving DecidableEq

/-- State set by startPassCalculation. -/
def initPCState : PCState :=
  { aborted := false, inProgress := true, firstPassFound := false,
    daysCalculated := 0, allFoundPasses := [] }

/-- Session events: one run of the calculateNextPassBatch task, or one call
    of stopPassCalculation. -/
inductive PCEvent
  | runBatch
  | stop
deriving DecidableEq

/-- One event step.  The returned flag records whether the step wrote the
    session cache (the sessionStorage.setItem call in updateViewMoreButton). -/
def stepPC (cfg : PCConfig) (batches : ℕ → List BPass) :
    PCState → PCEvent → PCState × Bool
  | s, .stop =>
    (if s.inProgress then { s with aborted := true, inProgress := false } else s,
     false)
  | s, .runBatch =>
    if s.aborted then (s, false)
    else
      let batch := batches s.daysCalculated
      let s1 := { s with daysCalculated := s.daysCalculated + cfg.batchSize }
      let s2 :=
        if batch.isEmpty then s1
        else { s1 with
          firstPassFound := true,
          allFoundPasses := sortByStart (s1.allFoundPasses ++ sortByStart batch) }
      let s3 := if cfg.maxDays ≤ s2.daysCalculated then { s2 with inProgress := false }
        else s2
      (s3, !s3.inProgress && cfg.renderBest && cfg.hasCoords)

/-- Run a list of events; the flag records whether any step wrote the cache. -/
def runPC (cfg : PCConfig) (batches : ℕ → List BPass) :
    PCState → List PCEvent → PCState × Bool
  | s, [] => (s, false)
  | s, e :: t =>
    let r := stepPC cfg batches s e
    let r' := runPC cfg batches r.1 t
    (r'.1, r.2 || r'.2)

/-- Along a trace, every step that writes the cache does so with
    daysCalculated at the maximum horizon and with no cancellation seen. -/
def goodWrites (cfg : PCConfig) (batches : ℕ → List BPass) :
    PCState → List PCEvent → Prop
  | _, [] => True
  | s, e :: t =>
    ((stepPC cfg batches s e).2 = true →
      cfg.maxDays ≤ (stepPC cfg batches s e).1.daysCalculated ∧ s.aborted = false) ∧
    goodWrites cfg batches (stepPC cfg batches s e).1 t

/-- Concatenation of the pass batches the first k uncancelled batch runs
    accumulate: batch j is keyed by daysCalculated = j * batchSize. -/
def concatBatches (cfg : PCConfig) (batches : ℕ → List BPass) : ℕ → List BPass
  | 0 => []
  | k + 1 => concatBatches cfg batches k ++ batches (k * cfg.batchSize)

/-! ## Real-valued geometry and photometry -/

/-- A three-component vector as used for ECI positions. -/
structure Vec3 where
  x : ℝ
  y : ℝ
  z : ℝ

/-- Componentwise difference of vectors. -/
noncomputable def vsub (a b : Vec3) : Vec3 := ⟨a.x - b.x, a.y - b.y, a.z - b.z⟩

/-- Scalar multiple of a vector. -/
noncomputable def vscale (t : ℝ) (a : Vec3) : Vec3 := ⟨t * a.x, t * a.y, t * a.z⟩

/-- Dot product written out componentwise as in the source. -/
noncomputable def dot3 (a b : Vec3) : ℝ := a.x * b.x + a.y * b.y + a.z * b.z

/-- Squared euclidean norm. -/
noncomputable def normSq (a : Vec3) : ℝ := a.x ^ 2 + a.y ^ 2 + a.z ^ 2

/-- satellite.degreesToRadians (external satellite.js helper): d * pi / 180. -/
noncomputable def degreesToRadians (d : ℝ) : ℝ := d * (Real.pi / 180)

/-- Math.atan2 of JavaScript on real arguments. -/
noncomputable def jsAtan2 (y x : ℝ) : ℝ :=
  if 0 < x then Real.arctan (y / x)
  else if x = 0 ∧ 0 < y then Real.pi / 2
  else if x = 0 ∧ y < 0 then -(Real.pi / 2)
  else if x < 0 ∧ 0 ≤ y then Real.arctan (y / x) + Real.pi
  else if x < 0 ∧ y < 0 then Real.arctan (y / x) - Real.pi
  else 0

/-- calculateDistance (src/script.js lines 1680 to 1687): the haversine
    great-circle distance in km on a sphere of radius 6371 km, inputs in
    degrees. -/
noncomputable def calculateDistance (lat1 lon1 lat2 lon2 : ℝ) : ℝ :=
  let R : ℝ := 6371
  let dLat := degreesToRadians (lat2 - lat1)
  let dLon := degreesToRadians (lon2 - lon1)
  let a := Real.sin (dLat / 2) * Real.sin (dLat / 2) +
    Real.cos (degreesToRadians lat1) * Real.cos (degreesToRadians lat2) *
      Real.sin (dLon / 2) * Real.sin (dLon / 2)
  let c := 2 * jsAtan2 (Real.sqrt a) (Real.sqrt (1 - a))
  R * c

/-- A ground-track sample point handed to the clipping helper: geodetic
    latitude and longitude in degrees, time in ms, ECI position. -/
structure GeoPoint where
  lat : ℝ
  lon : ℝ
  time : ℝ
  position : Vec3

/-- The boundary-crossing helper of the proximity map
    (src/script.js lines 1435 to 1449): linear interpolation of latitude,
    longitude, time and position at t = (radius - d1) / (d2 - d1). -/
noncomputable def getIntersectionPoint (p1 p2 : GeoPoint) (center : ℝ × ℝ)
    (radius : ℝ) : GeoPoint :=
  let d1 := calculateDistance p1.lat p1.lon center.1 center.2
  let d2 := calculateDistance p2.lat p2.lon center.1 center.2
  let t := (radius - d1) / (d2 - d1)
  { lat := p1.lat + t * (p2.lat - p1.lat),
    lon := p1.lon + t * (p2.lon - p1.lon),
    time := p1.time + t * (p2.time - p1.time),
    position := ⟨p1.position.x + t * (p2.position.x - p1.position.x),
                 p1.position.y + t * (p2.position.y - p1.position.y),
                 p1.position.z + t * (p2.position.z - p1.position.z)⟩ }

/-! ## Illumination test (src/script.js line 4647)

    getSunEci depends on the external satellite.jday; the sun-position
    function is therefore abstracted as a parameter, which the decision
    logic of isSatIlluminated does not inspect. -/

/-- isSatIlluminated: lit when the sun dot product is positive, otherwise
    when the squared distance to the earth-sun axis exceeds the squared
    earth radius.  The source returns a boolean; this is its propositional
    reading, branch for branch. -/
def isSatIlluminated (sunEciOf : ℝ → Vec3) (satEci : Vec3) (date : ℝ) : Prop :=
  let sunEci := sunEciOf date
  let dotProduct := satEci.x * sunEci.x + satEci.y * sunEci.y + satEci.z * sunEci.z
  let satMagSq := satEci.x ^ 2 + satEci.y ^ 2 + satEci.z ^ 2
  let sunMagSq := sunEci.x ^ 2 + sunEci.y ^ 2 + sunEci.z ^ 2
  if 0 < dotProduct then True
  else satMagSq - dotProduct ^ 2 / sunMagSq > 6378.137 ^ 2

/-! ## Magnitude estimation (src/script.js lines 3569 to 3640) -/

/-- The diffuse-sphere phase function of step 8. -/
noncomputable def phaseFunction (phi : ℝ) : ℝ :=
  (1 / Real.pi) * (Real.sin phi + (Real.pi - phi) * Real.cos phi)

/-- The phase angle of step 7: the angle at the object between the
    object-to-sun and object-to-observer vectors.  The source divides the
    dot product by the product of the vector norms and takes acos. -/
noncomputable def magPhi (satEci sunEci observerEci : Vec3) : ℝ :=
  Real.arccos (dot3 (vsub sunEci satEci) (vsub observerEci satEci) /
    (Real.sqrt (normSq (vsub sunEci satEci)) *
      Real.sqrt (normSq (vsub observerEci satEci))))

/-- The uncorrected apparent magnitude of step 9:
    M0 + 5 log10(range in thousands of km) - 2.5 log10(phase function). -/
noncomputable def magBase (M0 : ℝ) (satEci sunEci observerEci : Vec3) : ℝ :=
  M0 + 5 * Real.logb 10 (Real.sqrt (normSq (vsub observerEci satEci)) / 1000)
    - 2.5 * Real.logb 10 (phaseFunction (magPhi satEci sunEci observerEci))

/-- Result relation of calculateMagnitude from the sunlight check on
    (steps 3 and 5 to the return): inputs are the standard magnitude M0,
    the ECI positions of satellite, sun and observer (the external
    propagation and frame conversions abstracted), and the elevation in
    radians from the external look-angle computation.  The branches on
    real-valued tests are recorded as guarded disjuncts, in source order:
    not sunlit gives null; a nonpositive phase function gives null; positive
    elevation returns the magnitude plus the extinction 0.2 * (1 / sin e);
    elevation at or under zero gives null. -/
def calculateMagnitudeResult (sunlit : Prop) (M0 : ℝ)
    (satEci sunEci observerEci : Vec3) (elevationRad : ℝ) (r : Option ℝ) : Prop :=
  (¬ sunlit ∧ r = none) ∨
  (sunlit ∧ phaseFunction (magPhi satEci sunEci observerEci) ≤ 0 ∧ r = none) ∨
  (sunlit ∧ 0 < phaseFunction (magPhi satEci sunEci observerEci) ∧ 0 < elevationRad ∧
    r = some (magBase M0 satEci sunEci observerEci + 0.2 * (1 / Real.sin elevationRad))) ∨
  (sunlit ∧ 0 < phaseFunction (magPhi satEci sunEci observerEci) ∧ elevationRad ≤ 0 ∧
    r = none)

/-! ## Standard magnitude lookup (src/unnamed/part of script.js, satcatManager,
    src/script.js lines 150 to 175) -/

/-- The RCS_SIZE field of a catalog entry: a number, a string, or absent. -/
inductive RcsField
  | num (v : ℝ)
  | str (sv : String)
  | absent

/-- A satcat entry: optional numeric MAG and the RCS_SIZE field. -/
structure SatCatEntry where
  MAG : Option ℝ
  RCS_SIZE : RcsField

/-- The rcsValue selection inside getStandardMagnitude: a numeric RCS_SIZE
    is used directly, the strings SMALL and LARGE map to 0.1 and 10.0, and
    everything else defaults to 1.0. -/
noncomputable def rcsValueOf : RcsField → ℝ
  | .num v => v
  | .str sv => if sv = "SMALL" then 0.1 else if sv = "LARGE" then 10.0 else 1.0
  | .absent => 1.0

/-- getStandardMagnitude: 5.0 when the catalog is uninitialised or has no
    entry, the catalog MAG when numeric, else the RCS-derived fallback with
    the logarithm argument clamped from below at 0.001. -/
noncomputable def getStandardMagnitude (isInitialized : Bool)
    (satcat : ℤ → Option SatCatEntry) (noradId : ℤ) : ℝ :=
  match isInitialized, satcat noradId with
  | false, _ => 5.0
  | true, none => 5.0
  | true, some satData =>
    match satData.MAG with
    | some m => m
    | none => -1.5 - 2.5 * Real.logb 10 (max 0.001 (rcsValueOf satData.RCS_SIZE))

/-! ## Proximity tick (src/script.js lines 1475 to 1512)

    nearbyMode.update propagates every gathered object inside a try block
    whose catch returns from the callback, skipping the object for the
    tick; an object that propagates is added to currentlyNearbyIds when its
    computed ground distance is at most 1200 km. -/

/-- A gathered object of the proximity scanner, identified by its TLE id. -/
structure NearSat where
  id : ℕ
deriving DecidableEq

/-- The ids collected by one proximity tick: the oracle gives the computed
    observer distance of an object, or none when propagation throws. -/
def nearbyTickIds (oracle : NearSat → Option ℚ) (sats : List NearSat) : List ℕ :=
  sats.filterMap (fun s =>
    match oracle s with
    | none => none
    | some dist => if dist ≤ 1200 then some s.id else none)

/-! ## Basic facts about the scan building blocks -/

/-- Order of sample times in scan order: forward scans step ahead in time,
    backward scans step back. -/
def dirLe (future : Bool) (a b : ℤ) : Prop :=
  if future then a ≤ b else b ≤ a

instance (future : Bool) (a b : ℤ) : Decidable (dirLe future a b) := by
  unfold dirLe; infer_instance

/-! ## Invariants of the scan -/

/-- Bookkeeping facts of the pass under construction between two loop
    iterations, k being the index of the next sample. -/
structure ScanInv (future : Bool) (base : ℤ) (k : ℕ) (c : JsPass) : Prop where
  hv : c.hasVisibleSegment = c.points.any (·.isVisible)
  vsMem : ∀ a, c.visibleStart = some a →
    ∃ q ∈ c.points, q.time = a ∧ q.isVisible = true
  veMem : ∀ a, c.visibleEnd = some a →
    ∃ q ∈ c.points, q.time = a ∧ q.isVisible = true
  vsSome : c.hasVisibleSegment = true →
    c.visibleStart.isSome = true ∧ c.visibleEnd.isSome = true
  vsTick : ∀ a, c.visibleStart = some a → ∃ j, j < k ∧ a = tick future base j
  veTick : ∀ a, c.visibleEnd = some a → ∃ j, j < k ∧ a = tick future base j
  vOrder : ∀ a e, c.visibleStart = some a → c.visibleEnd = some e → dirLe future a e
  maxel : c.maxElevation =
    ((c.points.filter (·.isVisible)).map (·.elevation)).foldr max 0

/-- The full invariant of a live pass: the bookkeeping facts plus the fact
    that every buffered point so far cleared the 10 degree threshold (a
    point under it closes the pass in the same iteration it is pushed). -/
structure LiveInv (future : Bool) (base : ℤ) (k : ℕ) (c : JsPass) : Prop where
  toScan : ScanInv future base k c
  elev10 : ∀ q ∈ c.points, (10 : ℚ) ≤ q.elevation

/-- What holds of every pass the scan emits. -/
structure EmittedInv (future : Bool) (p : JsPass) : Prop where
  visCount : 1 ≤ p.points.countP (·.isVisible)
  twoPts : 2 ≤ p.points.length
  vsEq : p.visibleStart = some p.start
  veEq : p.visibleEnd = p.endT
  endSome : p.endT.isSome = true
  seOrder : ∀ e, p.endT = some e → dirLe future p.start e
  startVis : ∃ q ∈ p.points, q.time = p.start ∧ q.isVisible = true
  endVis : ∀ e, p.endT = some e → ∃ q ∈ p.points, q.time = e ∧ q.isVisible = true
  interior : ∀ q ∈ p.points.dropLast, (10 : ℚ) ≤ q.elevation
  lastLow : ∀ q, p.points.getLast? = some q → q.elevation < 10
  maxel : p.maxElevation =
    ((p.points.filter (·.isVisible)).map (·.elevation)).foldr max 0

/-- The session invariant: an uncancelled session that is no longer in
    progress has reached the day horizon. -/
def InvPC (cfg : PCConfig) (s : PCState) : Prop :=
  s.aborted = false → s.inProgress = false → cfg.maxDays ≤ s.daysCalculated

/-- A concrete emitted pass used to witness the emitted-pass theorems: the
    run over the samples (elevation 11, visible) then (elevation 9, not
    visible) emits exactly this pass. -/
def wPass : JsPass :=
  { start := 0, endT := some 0, visibleStart := some 0, visibleEnd := some 0,
    maxElevation := 11,
    points := [⟨0, 11, true, 5⟩, ⟨1000, 9, false, 7⟩],
    hasVisibleSegment := true, isPast := false,
    startAz := some 5, endAz := some 5 }

/-- Concrete session configuration used by the C3 witness. -/
def cfgW : PCConfig := ⟨5, 30, true, true⟩

/-- Concrete batch stream used by the C3 witness. -/
def batchesW : ℕ → List BPass := fun _ => [⟨0, 0⟩]

/-- Concrete catalog used against C10: the entry has no MAG and carries a
    numeric RCS_SIZE of 100 square metres. -/
def satcatCex : ℤ → Option SatCatEntry :=
  fun i => if i = 25544 then some ⟨none, RcsField.num 100⟩ else none


theorem dirLe_refl (future : Bool) (a : ℤ) : dirLe future a a := by
  unfold dirLe; split <;> exact le_refl a

theorem tick_dirLe (future : Bool) (base : ℤ) {j k : ℕ} (h : j ≤ k) :
    dirLe future (tick future base j) (tick future base k) := by
  unfold dirLe tick
  cases future <;> simp <;> omega

theorem if_lt_eq_max (a b : ℚ) : (if a < b then b else a) = max a b := by
  rcases le_or_lt b a with h | h
  · rw [if_neg (not_lt.mpr h), max_eq_left h]
  · rw [if_pos h, max_eq_right h.le]

theorem foldr_max_pull (l : List ℚ) (a e : ℚ) :
    l.foldr max (max e a) = max e (l.foldr max a) := by
  induction l with
  | nil => rfl
  | cons x t ih => simp only [List.foldr_cons, ih, max_left_comm]

theorem foldr_max_append (l : List ℚ) (a e : ℚ) :
    (l ++ [e]).foldr max a = max e (l.foldr max a) := by
  rw [List.foldr_append, List.foldr_cons, List.foldr_nil, foldr_max_pull]

theorem pushPoint_points (c : JsPass) (t : ℤ) (s : SampleOut) :
    (pushPoint c t s).points = c.points ++ [⟨t, s.elevation, s.visible, s.az⟩] := by
  unfold pushPoint; cases s.visible <;> simp

theorem pushPoint_hasVis (c : JsPass) (t : ℤ) (s : SampleOut) :
    (pushPoint c t s).hasVisibleSegment = (c.hasVisibleSegment || s.visible) := by
  unfold pushPoint; cases s.visible <;> simp

theorem pushPoint_visibleStart (c : JsPass) (t : ℤ) (s : SampleOut) :
    (pushPoint c t s).visibleStart =
      if s.visible then some (c.visibleStart.getD t) else c.visibleStart := by
  unfold pushPoint; cases s.visible <;> cases c.visibleStart <;> simp

theorem pushPoint_visibleEnd (c : JsPass) (t : ℤ) (s : SampleOut) :
    (pushPoint c t s).visibleEnd = if s.visible then some t else c.visibleEnd := by
  unfold pushPoint; cases s.visible <;> simp

theorem pushPoint_maxEl (c : JsPass) (t : ℤ) (s : SampleOut) :
    (pushPoint c t s).maxElevation =
      if s.visible then max c.maxElevation s.elevation else c.maxElevation := by
  unfold pushPoint; cases s.visible <;> simp [if_lt_eq_max]

theorem pushPoint_start (c : JsPass) (t : ℤ) (s : SampleOut) :
    (pushPoint c t s).start = c.start := by
  unfold pushPoint; cases s.visible <;> simp

theorem ScanInv.pushScan {f : Bool} {b : ℤ} {k : ℕ} {c : JsPass}
    (hc : ScanInv f b k c) (s : SampleOut) :
    ScanInv f b (k + 1) (pushPoint c (tick f b k) s) := by
  have hpts := pushPoint_points c (tick f b k) s
  have hhv := pushPoint_hasVis c (tick f b k) s
  have hvs := pushPoint_visibleStart c (tick f b k) s
  have hve := pushPoint_visibleEnd c (tick f b k) s
  have hmx := pushPoint_maxEl c (tick f b k) s
  cases hsv : s.visible with
  | false =>
    rw [hsv] at hhv hvs hve hmx
    simp only [Bool.false_eq_true, if_false, Bool.or_false] at hhv hvs hve hmx
    refine ⟨?_, ?_, ?_, ?_, ?_, ?_, ?_, ?_⟩
    · rw [hhv, hpts, hc.hv, List.any_append]
      simp [hsv]
    · intro a ha
      rw [hvs] at ha
      rcases hc.vsMem a ha with ⟨q, hq, hqt, hqv⟩
      exact ⟨q, by rw [hpts]; exact List.mem_append_left _ hq, hqt, hqv⟩
    · intro a ha
      rw [hve] at ha
      rcases hc.veMem a ha with ⟨q, hq, hqt, hqv⟩
      exact ⟨q, by rw [hpts]; exact List.mem_append_left _ hq, hqt, hqv⟩
    · intro h2
      rw [hvs, hve]
      exact hc.vsSome (by rw [← hhv]; exact h2)
    · intro a ha
      rw [hvs] at ha
      rcases hc.vsTick a ha with ⟨j, hj, hje⟩
      exact ⟨j, Nat.lt_succ_of_lt hj, hje⟩
    · intro a ha
      rw [hve] at ha
      rcases hc.veTick a ha with ⟨j, hj, hje⟩
      exact ⟨j, Nat.lt_succ_of_lt hj, hje⟩
    · intro a e ha he
      rw [hvs] at ha
      rw [hve] at he
      exact hc.vOrder a e ha he
    · rw [hmx, hpts, hc.maxel, List.filter_append]
      simp [hsv]
  | true =>
    rw [hsv] at hhv hvs hve hmx
    simp only [if_true, Bool.or_true] at hhv hvs hve hmx
    refine ⟨?_, ?_, ?_, ?_, ?_, ?_, ?_, ?_⟩
    · rw [hhv, hpts, List.any_append]
      simp [hsv]
    · intro a ha
      rw [hvs] at ha
      injection ha with ha
      cases hcvs : c.visibleStart with
      | none =>
        rw [hcvs] at ha
        simp only [Option.getD_none] at ha
        refine ⟨⟨tick f b k, s.elevation, s.visible, s.az⟩, ?_, by simpa using ha, by simpa using hsv⟩
        rw [hpts]
        exact List.mem_append_right _ (List.mem_singleton.mpr rfl)
      | some v =>
        rw [hcvs] at ha
        simp only [Option.getD_some] at ha
        rcases hc.vsMem v hcvs with ⟨q, hq, hqt, hqv⟩
        exact ⟨q, by rw [hpts]; exact List.mem_append_left _ hq, by rw [hqt, ha], hqv⟩
    · intro a ha
      rw [hve] at ha
      injection ha with ha
      refine ⟨⟨tick f b k, s.elevation, s.visible, s.az⟩, ?_, by simpa using ha, by simpa using hsv⟩
      rw [hpts]
      exact List.mem_append_right _ (List.mem_singleton.mpr rfl)
    · intro _
      rw [hvs, hve]
      exact ⟨rfl, rfl⟩
    · intro a ha
      rw [hvs] at ha
      injection ha with ha
      cases hcvs : c.visibleStart with
      | none =>
        rw [hcvs] at ha
        simp only [Option.getD_none] at ha
        exact ⟨k, Nat.lt_succ_self k, ha.symm⟩
      | some v =>
        rw [hcvs] at ha
        simp only [Option.getD_some] at ha
        rcases hc.vsTick v hcvs with ⟨j, hj, hje⟩
        exact ⟨j, Nat.lt_succ_of_lt hj, by rw [← ha]; exact hje⟩
    · intro a ha
      rw [hve] at ha
      injection ha with ha
      exact ⟨k, Nat.lt_succ_self k, ha.symm⟩
    · intro a e ha he
      rw [hvs] at ha
      rw [hve] at he
      injection ha with ha
      injection he with he
      cases hcvs : c.visibleStart with
      | none =>
        rw [hcvs] at ha
        simp only [Option.getD_none] at ha
        rw [← ha, ← he]
        exact dirLe_refl f _
      | some v =>
        rw [hcvs] at ha
        simp only [Option.getD_some] at ha
        rcases hc.vsTick v hcvs with ⟨j, hj, hje⟩
        rw [← ha, ← he, hje]
        exact tick_dirLe f b (Nat.le_of_lt hj)
    · rw [hmx, hpts, hc.maxel, List.filter_append]
      simp only [List.filter_cons, List.filter_nil, hsv, if_true, List.map_append,
        List.map_cons, List.map_nil]
      rw [foldr_max_append]
      exact (max_comm _ _)

theorem ScanInv.ofNewPass (f : Bool) (b : ℤ) (k : ℕ) (t : ℤ) :
    ScanInv f b k (newPass f t) := by
  refine ⟨?_, ?_, ?_, ?_, ?_, ?_, ?_, ?_⟩ <;> simp [newPass]

theorem LiveInv.pushLive {f : Bool} {b : ℤ} {k : ℕ} {c : JsPass}
    (hc : LiveInv f b k c) (s : SampleOut) (hel : (10 : ℚ) ≤ s.elevation) :
    LiveInv f b (k + 1) (pushPoint c (tick f b k) s) := by
  refine ⟨hc.toScan.pushScan s, ?_⟩
  intro q hq
  rw [pushPoint_points] at hq
  rcases List.mem_append.mp hq with h | h
  · exact hc.elev10 q h
  · rw [List.mem_singleton] at h
    subst h
    exact hel

theorem LiveInv.ofNewLive {f : Bool} {b : ℤ} {k : ℕ} (s : SampleOut)
    (hel : (10 : ℚ) < s.elevation) :
    LiveInv f b (k + 1) (pushPoint (newPass f (tick f b k)) (tick f b k) s) :=
  LiveInv.pushLive ⟨ScanInv.ofNewPass f b k _, by simp [newPass]⟩ s hel.le

theorem EmittedInv.ofFinalize {f : Bool} {b : ℤ} {k : ℕ} {c : JsPass}
    (hc : LiveInv f b k c) (s : SampleOut) (hlow : s.elevation < 10)
    (hseg : (pushPoint c (tick f b k) s).hasVisibleSegment = true)
    (hlen : 1 < (pushPoint c (tick f b k) s).points.length) :
    EmittedInv f (finalizePass (pushPoint c (tick f b k) s) (tick f b k)) := by
  have hc2 : ScanInv f b (k + 1) (pushPoint c (tick f b k) s) := hc.toScan.pushScan s
  set c2 := pushPoint c (tick f b k) s with hc2def
  obtain ⟨hvsS, hveS⟩ := hc2.vsSome hseg
  rcases Option.isSome_iff_exists.mp hvsS with ⟨vs, hvs⟩
  rcases Option.isSome_iff_exists.mp hveS with ⟨ve, hve⟩
  have hres : finalizePass c2 (tick f b k) =
      { c2 with
        start := vs
        endT := some ve
        startAz := (c2.points.find? (fun p => p.time == vs)).map (·.az)
        endAz := ((c2.points.filter
          (fun p => decide (vs ≤ p.time) && decide (p.time ≤ ve))).getLast?).map (·.az) } := by
    unfold finalizePass
    simp only [hvs, hve]
  rw [hres]
  have hq : c2.points = c.points ++ [⟨tick f b k, s.elevation, s.visible, s.az⟩] :=
    pushPoint_points c (tick f b k) s
  refine ⟨?_, ?_, ?_, ?_, ?_, ?_, ?_, ?_, ?_, ?_, ?_⟩
  · have hany : c2.points.any (·.isVisible) = true := by rw [← hc2.hv]; exact hseg
    simp only [List.any_eq_true] at hany
    exact (List.countP_pos_iff).mpr (by simpa using hany)
  · exact hlen
  · exact hvs
  · rw [hve]
  · rfl
  · intro e he
    injection he with he
    rw [← he]
    exact hc2.vOrder vs ve hvs hve
  · exact hc2.vsMem vs hvs
  · intro e he
    injection he with he
    rw [← he]
    exact hc2.veMem ve hve
  · intro q hq'
    rw [hq, List.dropLast_concat] at hq'
    exact hc.elev10 q hq'
  · intro q hq'
    rw [hq, List.getLast?_concat] at hq'
    injection hq' with hq'
    subst hq'
    exact hlow
  · exact hc2.maxel

/-- Every pass the scan loop emits satisfies the emitted-pass invariant. -/
theorem scanAux_emitted (f : Bool) (b : ℤ) (m : ℕ) :
    ∀ (samples : List (Option SampleOut)) (k : ℕ) (cur : Option JsPass)
      (acc : List JsPass),
      (∀ c, cur = some c → LiveInv f b k c) →
      (∀ p ∈ acc, EmittedInv f p) →
      ∀ p ∈ scanAux f b m samples k cur acc, EmittedInv f p := by
  intro samples
  induction samples with
  | nil =>
    intro k cur acc _ hacc p hp
    rw [scanAux] at hp
    exact hacc p hp
  | cons o rest ih =>
    intro k cur acc hcur hacc p hp
    cases o with
    | none =>
      rw [scanAux] at hp
      exact ih (k + 1) none acc (by intro c h; cases h) hacc p hp
    | some s =>
      cases cur with
      | none =>
        rw [scanAux] at hp
        by_cases h10 : 10 < s.elevation
        · simp only [if_pos h10] at hp
          have hnl : ¬ s.elevation < 10 := not_lt.mpr (le_of_lt (by exact_mod_cast h10))
          simp only [if_neg hnl] at hp
          exact ih (k + 1) _ acc
            (by intro c h; injection h with h; rw [← h]; exact LiveInv.ofNewLive s h10)
            hacc p hp
        · simp only [if_neg h10] at hp
          exact ih (k + 1) none acc (by intro c h; cases h) hacc p hp
      | some c =>
        have hlive := hcur c rfl
        rw [scanAux] at hp
        by_cases hlow : s.elevation < 10
        · simp only [if_pos hlow] at hp
          have haccE : ∀ q ∈ exitStep acc (pushPoint c (tick f b k) s) (tick f b k),
              EmittedInv f q := by
            unfold exitStep
            split
            next hgate =>
              intro q hq
              rcases List.mem_append.mp hq with hmem | hmem
              · exact hacc q hmem
              · rw [List.mem_singleton] at hmem
                subst hmem
                rcases Bool.and_eq_true_iff.mp hgate with ⟨hseg, hlen⟩
                exact EmittedInv.ofFinalize hlive s hlow hseg (of_decide_eq_true hlen)
            next => exact hacc
          split at hp
          · exact haccE p hp
          · exact ih (k + 1) none _ (by intro c' h; cases h) haccE p hp
        · simp only [if_neg hlow] at hp
          exact ih (k + 1) (some (pushPoint c (tick f b k) s)) acc
            (by intro c' h; injection h with h; rw [← h];
                exact hlive.pushLive s (not_lt.mp hlow))
            hacc p hp

/-- A scan over samples none of which satisfies the visibility predicate
    emits nothing, whatever the elevations do. -/
theorem scanAux_no_visible (f : Bool) (b : ℤ) (m : ℕ) :
    ∀ (samples : List (Option SampleOut)) (k : ℕ) (cur : Option JsPass)
      (acc : List JsPass),
      (∀ o ∈ samples, ∀ s : SampleOut, o = some s → s.visible = false) →
      (∀ c, cur = some c → c.hasVisibleSegment = false) →
      scanAux f b m samples k cur acc = acc := by
  intro samples
  induction samples with
  | nil => intro k cur acc _ _; rw [scanAux]
  | cons o rest ih =>
    intro k cur acc hvis hcur
    have hvrest : ∀ o' ∈ rest, ∀ s : SampleOut, o' = some s → s.visible = false :=
      fun o' ho' => hvis o' (List.mem_cons_of_mem o ho')
    cases o with
    | none =>
      rw [scanAux]
      exact ih (k + 1) none acc hvrest (by intro c h; cases h)
    | some s =>
      have hsv : s.visible = false := hvis (some s) (List.mem_cons_self _ _) s rfl
      cases cur with
      | none =>
        rw [scanAux]
        by_cases h10 : 10 < s.elevation
        · simp only [if_pos h10]
          have hnl : ¬ s.elevation < 10 := not_lt.mpr h10.le
          simp only [if_neg hnl]
          refine ih (k + 1) _ acc hvrest ?_
          intro c h
          injection h with h
          rw [← h, pushPoint_hasVis, hsv]
          simp [newPass]
        · simp only [if_neg h10]
          exact ih (k + 1) none acc hvrest (by intro c h; cases h)
      | some c =>
        have hchv : c.hasVisibleSegment = false := hcur c rfl
        have hc2hv : (pushPoint c (tick f b k) s).hasVisibleSegment = false := by
          rw [pushPoint_hasVis, hsv, hchv]
          rfl
        rw [scanAux]
        by_cases hlow : s.elevation < 10
        · simp only [if_pos hlow]
          have hexit : exitStep acc (pushPoint c (tick f b k) s) (tick f b k) = acc := by
            unfold exitStep
            rw [hc2hv]
            simp
          rw [hexit]
          split
          · rfl
          · exact ih (k + 1) none acc hvrest (by intro c' h; cases h)
        · simp only [if_neg hlow]
          exact ih (k + 1) _ acc hvrest
            (by intro c' h; injection h with h; rw [← h]; exact hc2hv)

/-! ## Claim theorems for the pass scan -/

/-- C1, counterexample: on the stream with one visible sample at elevation
    11 followed by a non-visible closing sample at elevation 9, the scan
    emits a pass whose buffer holds exactly one visible sample, so a pass
    with a single visible sample is not discarded. -/
theorem C1_counterexample :
    ∃ p ∈ calculateVisiblePasses true 0 20
        [some ⟨11, true, 5⟩, some ⟨9, false, 7⟩],
      p.points.countP (·.isVisible) = 1 := by
  decide

/-- C1, amended: every pass calculateVisiblePasses emits has at least one
    sample with isVisible true and at least two buffered samples in total;
    the source gate is hasVisibleSegment together with points.length > 1,
    not a two-visible-samples test. -/
theorem C1_amended (future : Bool) (base : ℤ) (maxPasses : ℕ)
    (samples : List (Option SampleOut)) (p : JsPass)
    (hp : p ∈ calculateVisiblePasses future base maxPasses samples) :
    1 ≤ p.points.countP (·.isVisible) ∧ 2 ≤ p.points.length := by
  have h := scanAux_emitted future base maxPasses samples 0 none []
    (by intro c h; cases h) (by intro q hq; cases hq) p hp
  exact ⟨h.visCount, h.twoPts⟩

/-- Witness for C1_amended at a concrete run. -/
theorem C1_amended_witness :
    wPass ∈ calculateVisiblePasses true 0 20
        [some ⟨11, true, 5⟩, some ⟨9, false, 7⟩] ∧
    (1 ≤ wPass.points.countP (·.isVisible) ∧ 2 ≤ wPass.points.length) :=
  ⟨by decide, C1_amended true 0 20 [some ⟨11, true, 5⟩, some ⟨9, false, 7⟩] wPass (by decide)⟩

/-- C2, counterexample: scanning in the past direction over two visible
    samples at elevations 11 and 9, the emitted pass has start 0 and end
    -1000, so start ≤ end fails, and the sample at the end time has
    elevation 9 which is not above the 10 degree threshold. -/
theorem C2_counterexample :
    ∃ p ∈ calculateVisiblePasses false 0 20
        [some ⟨11, true, 0⟩, some ⟨9, true, 0⟩],
      p.start = 0 ∧ p.endT = some (-1000) ∧ ¬ ((0 : ℤ) ≤ -1000) ∧
      ∃ q ∈ p.points, q.time = -1000 ∧ q.isVisible = true ∧ q.elevation < 10 := by
  decide

/-- C2, amended: for every emitted pass, start and end are the first and
    last visible sample times in scan order (start ≤ end for the future
    direction, end ≤ start for the past direction); every buffered sample
    except the final one has elevation at least 10, and the final buffered
    sample, which may carry the end time, has elevation under 10. -/
theorem C2_amended (future : Bool) (base : ℤ) (maxPasses : ℕ)
    (samples : List (Option SampleOut)) (p : JsPass)
    (hp : p ∈ calculateVisiblePasses future base maxPasses samples) :
    (∃ e, p.endT = some e ∧ dirLe future p.start e ∧
      p.visibleStart = some p.start ∧ p.visibleEnd = some e ∧
      (∃ q ∈ p.points, q.time = p.start ∧ q.isVisible = true) ∧
      (∃ q ∈ p.points, q.time = e ∧ q.isVisible = true)) ∧
    (∀ q ∈ p.points.dropLast, (10 : ℚ) ≤ q.elevation) ∧
    (∀ q, p.points.getLast? = some q → q.elevation < 10) := by
  have h := scanAux_emitted future base maxPasses samples 0 none []
    (by intro c hc; cases hc) (by intro q hq; cases hq) p hp
  rcases Option.isSome_iff_exists.mp h.endSome with ⟨e, he⟩
  refine ⟨⟨e, he, h.seOrder e he, h.vsEq, ?_, h.startVis, h.endVis e he⟩,
    h.interior, h.lastLow⟩
  rw [h.veEq]
  exact he

/-- Witness for C2_amended at a concrete run. -/
theorem C2_amended_witness :
    wPass ∈ calculateVisiblePasses true 0 20
        [some ⟨11, true, 5⟩, some ⟨9, false, 7⟩] ∧
    ((∃ e, wPass.endT = some e ∧ dirLe true wPass.start e ∧
      wPass.visibleStart = some wPass.start ∧ wPass.visibleEnd = some e ∧
      (∃ q ∈ wPass.points, q.time = wPass.start ∧ q.isVisible = true) ∧
      (∃ q ∈ wPass.points, q.time = e ∧ q.isVisible = true)) ∧
    (∀ q ∈ wPass.points.dropLast, (10 : ℚ) ≤ q.elevation) ∧
    (∀ q, wPass.points.getLast? = some q → q.elevation < 10)) :=
  ⟨by decide, C2_amended true 0 20 [some ⟨11, true, 5⟩, some ⟨9, false, 7⟩] wPass (by decide)⟩

/-- C8: when the visibility predicate fails at every sample, the scan emits
    no pass, even when elevation is above 10 degrees throughout. -/
theorem C8_daytime_filtering (future : Bool) (base : ℤ) (maxPasses : ℕ)
    (samples : List (Option SampleOut))
    (_helev : ∀ o ∈ samples, ∀ s : SampleOut, o = some s → 10 < s.elevation)
    (hvis : ∀ o ∈ samples, ∀ s : SampleOut, o = some s → s.visible = false) :
    calculateVisiblePasses future base maxPasses samples = [] :=
  scanAux_no_visible future base maxPasses samples 0 none [] hvis
    (by intro c h; cases h)

/-- Witness for C8 at a concrete run: a whole stream above threshold but
    never visible yields no passes. -/
theorem C8_daytime_filtering_witness :
    (∀ o ∈ [some (⟨11, false, 0⟩ : SampleOut), some ⟨12, false, 0⟩,
        some ⟨11, false, 0⟩], ∀ s : SampleOut, o = some s → 10 < s.elevation) ∧
    (∀ o ∈ [some (⟨11, false, 0⟩ : SampleOut), some ⟨12, false, 0⟩,
        some ⟨11, false, 0⟩], ∀ s : SampleOut, o = some s → s.visible = false) ∧
    calculateVisiblePasses true 0 20
      [some ⟨11, false, 0⟩, some ⟨12, false, 0⟩, some ⟨11, false, 0⟩] = [] :=
  ⟨by decide, by decide,
    C8_daytime_filtering true 0 20 [some ⟨11, false, 0⟩, some ⟨12, false, 0⟩, some ⟨11, false, 0⟩] (by decide) (by decide)⟩

/-- C9, counterexample: on the stream with a non-visible opening sample at
    elevation 11 and a visible closing sample at elevation -5, the emitted
    pass has maxElevation 0 although the only visible sample has elevation
    -5: maxElevation is not the maximum over the visible samples. -/
theorem C9_counterexample :
    ∃ p ∈ calculateVisiblePasses true 0 20
        [some ⟨11, false, 0⟩, some ⟨-5, true, 0⟩],
      (p.points.filter (·.isVisible)).map (·.elevation) = [(-5 : ℚ)] ∧
      p.maxElevation = 0 ∧ (0 : ℚ) ≠ -5 := by
  decide

/-- C9, amended: maxElevation is folded only over the visible samples but
    from the initial value 0, so it equals the maximum of 0 and the visible
    elevations; it equals the plain maximum over visible samples whenever a
    visible sample has nonnegative elevation. -/
theorem C9_amended (future : Bool) (base : ℤ) (maxPasses : ℕ)
    (samples : List (Option SampleOut)) (p : JsPass)
    (hp : p ∈ calculateVisiblePasses future base maxPasses samples) :
    p.maxElevation =
      ((p.points.filter (·.isVisible)).map (·.elevation)).foldr max 0 :=
  (scanAux_emitted future base maxPasses samples 0 none []
    (by intro c hc; cases hc) (by intro q hq; cases hq) p hp).maxel

/-- Witness for C9_amended at a concrete run. -/
theorem C9_amended_witness :
    wPass ∈ calculateVisiblePasses true 0 20
        [some ⟨11, true, 5⟩, some ⟨9, false, 7⟩] ∧
    wPass.maxElevation =
      ((wPass.points.filter (·.isVisible)).map (·.elevation)).foldr max 0 :=
  ⟨by decide, C9_amended true 0 20 [some ⟨11, true, 5⟩, some ⟨9, false, 7⟩] wPass (by decide)⟩

/-- C5: a propagation throw is caught per sample: the scan clears inPass
    and continues at the next tick; a throw at a sample outside any pass
    window leaves the scan output unchanged, so passes not touching the
    failing sample are emitted as without the failure; and the proximity
    tick skips an object whose propagation fails, leaving the other
    objects of the tick as they were. -/
theorem C5_failures_skipped :
    (∀ (future : Bool) (base : ℤ) (m k : ℕ) (rest : List (Option SampleOut))
      (cur : Option JsPass) (acc : List JsPass),
      scanAux future base m (none :: rest) k cur acc =
        scanAux future base m rest (k + 1) none acc) ∧
    (∀ (future : Bool) (base : ℤ) (m k : ℕ) (rest : List (Option SampleOut))
      (acc : List JsPass) (s : SampleOut), ¬ 10 < s.elevation →
      scanAux future base m (some s :: rest) k none acc =
        scanAux future base m (none :: rest) k none acc) ∧
    (∀ (oracle : NearSat → Option ℚ) (o : NearSat) (sats : List NearSat),
      oracle o = none →
      nearbyTickIds oracle (o :: sats) = nearbyTickIds oracle sats) := by
  refine ⟨?_, ?_, ?_⟩
  · intro future base m k rest cur acc
    rw [scanAux]
  · intro future base m k rest acc s h
    rw [scanAux, scanAux]
    simp only [if_neg h]
  · intro oracle o sats h
    unfold nearbyTickIds
    rw [List.filterMap_cons, h]

/-! ## Claim theorems for the batched session -/

theorem runPC_append (cfg : PCConfig) (batches : ℕ → List BPass) :
    ∀ (l1 l2 : List PCEvent) (s : PCState),
      runPC cfg batches s (l1 ++ l2) =
        ((runPC cfg batches (runPC cfg batches s l1).1 l2).1,
         (runPC cfg batches s l1).2 ||
           (runPC cfg batches (runPC cfg batches s l1).1 l2).2) := by
  intro l1
  induction l1 with
  | nil => intro l2 s; simp [runPC]
  | cons e t ih =>
    intro l2 s
    simp only [List.cons_append, runPC, List.append_eq, ih, Bool.or_assoc]

/-- Once the session is aborted and no longer in progress, no event changes
    the state and no cache write happens. -/
theorem runPC_frozen (cfg : PCConfig) (batches : ℕ → List BPass) :
    ∀ (evs : List PCEvent) (s : PCState), s.aborted = true → s.inProgress = false →
      runPC cfg batches s evs = (s, false) := by
  intro evs
  induction evs with
  | nil => intro s _ _; rfl
  | cons e t ih =>
    intro s h1 h2
    have hstep : stepPC cfg batches s e = (s, false) := by
      cases e with
      | stop => simp [stepPC, h2]
      | runBatch => simp [stepPC, h1]
    simp only [runPC, hstep]
    rw [ih s h1 h2]
    rfl

/-- One uncancelled batch run, flattened: the day counter advances by the
    batch size, a nonempty batch is sorted and merged in by the two sort
    calls, progress ends when the horizon is reached, and the cache write
    happens exactly when the session is then out of progress with the
    best-passes render target and coordinates set. -/
theorem stepPC_runBatch (cfg : PCConfig) (batches : ℕ → List BPass) (s : PCState)
    (hab : s.aborted = false) :
    stepPC cfg batches s PCEvent.runBatch =
      ({ aborted := s.aborted,
         inProgress := if cfg.maxDays ≤ s.daysCalculated + cfg.batchSize then false
           else s.inProgress,
         firstPassFound := if (batches s.daysCalculated).isEmpty then s.firstPassFound
           else true,
         daysCalculated := s.daysCalculated + cfg.batchSize,
         allFoundPasses := if (batches s.daysCalculated).isEmpty then s.allFoundPasses
           else sortByStart (s.allFoundPasses ++ sortByStart (batches s.daysCalculated)) },
       (!(if cfg.maxDays ≤ s.daysCalculated + cfg.batchSize then false else s.inProgress)
         && cfg.renderBest && cfg.hasCoords)) := by
  simp only [stepPC]
  by_cases hb : (batches s.daysCalculated).isEmpty <;>
    by_cases hm : cfg.maxDays ≤ s.daysCalculated + cfg.batchSize <;>
      simp [hab, hb, hm]

theorem stepPC_runBatch_aborted (cfg : PCConfig) (batches : ℕ → List BPass)
    (s : PCState) (hab : s.aborted = true) :
    stepPC cfg batches s PCEvent.runBatch = (s, false) := by
  simp only [stepPC]
  rw [if_pos hab]

theorem stepPC_stop (cfg : PCConfig) (batches : ℕ → List BPass) (s : PCState) :
    stepPC cfg batches s PCEvent.stop =
      (if s.inProgress then { s with aborted := true, inProgress := false } else s,
       false) := rfl

/-- State after k uncancelled batch runs: not aborted, the day counter at
    k * batchSize, and, when the appended batch stream is sorted by start,
    the accumulated list is exactly the concatenation of the k batches;
    while the horizon is not reached the session stays in progress and no
    cache write has happened. -/
theorem runPC_replicate (cfg : PCConfig) (batches : ℕ → List BPass) :
    ∀ k : ℕ, (concatBatches cfg batches k).Sorted bLe →
      (runPC cfg batches initPCState (List.replicate k PCEvent.runBatch)).1.aborted
          = false ∧
      (runPC cfg batches initPCState (List.replicate k PCEvent.runBatch)).1.daysCalculated
          = k * cfg.batchSize ∧
      (runPC cfg batches initPCState (List.replicate k PCEvent.runBatch)).1.allFoundPasses
          = concatBatches cfg batches k ∧
      (k * cfg.batchSize < cfg.maxDays →
        (runPC cfg batches initPCState (List.replicate k PCEvent.runBatch)).1.inProgress
            = true ∧
        (runPC cfg batches initPCState (List.replicate k PCEvent.runBatch)).2 = false) := by
  intro k
  induction k with
  | zero =>
    intro _
    refine ⟨rfl, ?_, rfl, fun _ => ⟨rfl, rfl⟩⟩
    rw [Nat.zero_mul]
    rfl
  | succ k ih =>
    intro hsort
    have hsortk : (concatBatches cfg batches k).Sorted bLe :=
      ((List.pairwise_append).mp hsort).1
    have hsortb : (batches (k * cfg.batchSize)).Sorted bLe :=
      ((List.pairwise_append).mp hsort).2.1
    obtain ⟨hab, hdays, hlist, hprog⟩ := ih hsortk
    have hrep : List.replicate (k + 1) PCEvent.runBatch =
        List.replicate k PCEvent.runBatch ++ [PCEvent.runBatch] :=
      List.replicate_succ' k PCEvent.runBatch
    rw [hrep, runPC_append]
    set sk := (runPC cfg batches initPCState (List.replicate k PCEvent.runBatch)).1
      with hsk
    have hone : runPC cfg batches sk [PCEvent.runBatch] =
        ((stepPC cfg batches sk PCEvent.runBatch).1,
          (stepPC cfg batches sk PCEvent.runBatch).2) := by
      simp [runPC]
    have hstep := stepPC_runBatch cfg batches sk hab
    have hdays2 : sk.daysCalculated + cfg.batchSize = (k + 1) * cfg.batchSize := by
      rw [hdays, Nat.succ_mul]
    rw [hone, hstep]
    refine ⟨hab, hdays2, ?_, ?_⟩
    · show (if (batches sk.daysCalculated).isEmpty then sk.allFoundPasses
          else sortByStart (sk.allFoundPasses ++ sortByStart (batches sk.daysCalculated)))
          = concatBatches cfg batches (k + 1)
      rw [hdays, hlist]
      by_cases hb : (batches (k * cfg.batchSize)).isEmpty
      · rw [if_pos hb]
        show concatBatches cfg batches k =
          concatBatches cfg batches k ++ batches (k * cfg.batchSize)
        rw [List.isEmpty_iff.mp hb, List.append_nil]
      · rw [if_neg hb]
        unfold sortByStart
        rw [List.Sorted.insertionSort_eq hsortb]
        show List.insertionSort bLe (concatBatches cfg batches (k + 1)) =
          concatBatches cfg batches (k + 1)
        exact List.Sorted.insertionSort_eq hsort
    · intro hlt
      have hklt : k * cfg.batchSize < cfg.maxDays :=
        Nat.lt_of_le_of_lt (Nat.mul_le_mul_right cfg.batchSize (Nat.le_succ k)) hlt
      obtain ⟨hprog1, hw1⟩ := hprog hklt
      have hnotle : ¬ cfg.maxDays ≤ sk.daysCalculated + cfg.batchSize := by
        rw [hdays2]
        exact Nat.not_le_of_lt hlt
      constructor
      · show (if cfg.maxDays ≤ sk.daysCalculated + cfg.batchSize then false
            else sk.inProgress) = true
        rw [if_neg hnotle]
        exact hprog1
      · show ((runPC cfg batches initPCState (List.replicate k PCEvent.runBatch)).2 ||
            ((!(if cfg.maxDays ≤ sk.daysCalculated + cfg.batchSize then false
              else sk.inProgress)) && cfg.renderBest && cfg.hasCoords)) = false
        rw [hw1, if_neg hnotle, hprog1]
        rfl

theorem stepPC_inv (cfg : PCConfig) (batches : ℕ → List BPass) (s : PCState)
    (e : PCEvent) (h : InvPC cfg s) : InvPC cfg (stepPC cfg batches s e).1 := by
  cases e with
  | stop =>
    rw [stepPC_stop]
    by_cases hp : s.inProgress
    · rw [if_pos hp]
      intro h1
      simp at h1
    · rw [if_neg hp]
      exact h
  | runBatch =>
    cases hab : s.aborted with
    | true =>
      rw [stepPC_runBatch_aborted cfg batches s hab]
      exact h
    | false =>
      rw [stepPC_runBatch cfg batches s hab]
      intro _ h2
      simp only at h2
      by_cases hm : cfg.maxDays ≤ s.daysCalculated + cfg.batchSize
      · exact hm
      · rw [if_neg hm] at h2
        exact Nat.le_trans (h hab h2) (Nat.le_add_right _ _)

theorem stepPC_write (cfg : PCConfig) (batches : ℕ → List BPass) (s : PCState)
    (e : PCEvent) (h : InvPC cfg s) (hw : (stepPC cfg batches s e).2 = true) :
    cfg.maxDays ≤ (stepPC cfg batches s e).1.daysCalculated ∧ s.aborted = false := by
  cases e with
  | stop =>
    rw [stepPC_stop] at hw
    cases hw
  | runBatch =>
    cases hab : s.aborted with
    | true =>
      rw [stepPC_runBatch_aborted cfg batches s hab] at hw
      cases hw
    | false =>
      rw [stepPC_runBatch cfg batches s hab] at hw ⊢
      refine ⟨?_, rfl⟩
      simp only
      by_cases hm : cfg.maxDays ≤ s.daysCalculated + cfg.batchSize
      · exact hm
      · rw [if_neg hm] at hw
        simp only [Bool.and_eq_true, Bool.not_eq_true'] at hw
        exact Nat.le_trans (h hab hw.1.1) (Nat.le_add_right _ _)

theorem goodWrites_all (cfg : PCConfig) (batches : ℕ → List BPass) :
    ∀ (evs : List PCEvent) (s : PCState), InvPC cfg s →
      goodWrites cfg batches s evs := by
  intro evs
  induction evs with
  | nil => intro s _; trivial
  | cons e t ih =>
    intro s h
    exact ⟨fun hw => stepPC_write cfg batches s e h hw,
      ih _ (stepPC_inv cfg batches s e h)⟩

/-- C3: cancelling a session after k completed batches freezes the
    accumulated list at exactly the concatenation of those k batches (the
    batch stream arriving sorted by start, as chronological batches do),
    with no cache write during or after the cancelled session; and along
    any event trace from a fresh session, a step can write the cache only
    with the day counter at the configured maximum horizon and with no
    cancellation. -/
theorem C3_cancellation (cfg : PCConfig) (batches : ℕ → List BPass) (k : ℕ)
    (evs : List PCEvent)
    (hsort : (concatBatches cfg batches k).Sorted bLe)
    (hk : k * cfg.batchSize < cfg.maxDays) :
    (runPC cfg batches initPCState
        (List.replicate k PCEvent.runBatch ++ PCEvent.stop :: evs)).1.allFoundPasses
      = concatBatches cfg batches k ∧
    (runPC cfg batches initPCState
        (List.replicate k PCEvent.runBatch ++ PCEvent.stop :: evs)).2 = false ∧
    (∀ evs2 : List PCEvent, goodWrites cfg batches initPCState evs2) := by
  obtain ⟨hab, hdays, hlist, hprog⟩ := runPC_replicate cfg batches k hsort
  obtain ⟨hprog1, hw1⟩ := hprog hk
  rw [runPC_append]
  set sk := (runPC cfg batches initPCState (List.replicate k PCEvent.runBatch)).1
    with hsk
  have hstop : stepPC cfg batches sk PCEvent.stop =
      ({ sk with aborted := true, inProgress := false }, false) := by
    rw [stepPC_stop, if_pos hprog1]
  have hfrozen := runPC_frozen cfg batches evs
    { sk with aborted := true, inProgress := false } rfl rfl
  have hrun : runPC cfg batches sk (PCEvent.stop :: evs) =
      ({ sk with aborted := true, inProgress := false }, false) := by
    simp only [runPC, hstop]
    rw [hfrozen]
    rfl
  rw [hrun]
  refine ⟨hlist, ?_, ?_⟩
  · show ((runPC cfg batches initPCState (List.replicate k PCEvent.runBatch)).2
      || false) = false
    rw [hw1]
    rfl
  · intro evs2
    refine goodWrites_all cfg batches evs2 initPCState ?_
    intro _ h2
    simp [initPCState] at h2

/-- Witness for C3_cancellation at a concrete session. -/
theorem C3_cancellation_witness :
    (concatBatches cfgW batchesW 2).Sorted bLe ∧
    2 * cfgW.batchSize < cfgW.maxDays ∧
    ((runPC cfgW batchesW initPCState
        (List.replicate 2 PCEvent.runBatch ++
          PCEvent.stop :: [PCEvent.runBatch])).1.allFoundPasses
      = concatBatches cfgW batchesW 2 ∧
    (runPC cfgW batchesW initPCState
        (List.replicate 2 PCEvent.runBatch ++
          PCEvent.stop :: [PCEvent.runBatch])).2 = false ∧
    (∀ evs2 : List PCEvent, goodWrites cfgW batchesW initPCState evs2)) :=
  ⟨by decide, by decide,
    C3_cancellation cfgW batchesW 2 [PCEvent.runBatch] (by decide) (by decide)⟩

/-- Witness for C5_failures_skipped at concrete inputs. -/
theorem C5_failures_skipped_witness :
    (¬ (10 : ℚ) < (9 : ℚ)) ∧
    scanAux true 0 20 [some ⟨9, false, 0⟩, some ⟨11, true, 1⟩, some ⟨9, true, 2⟩]
        0 none [] =
      scanAux true 0 20 [none, some ⟨11, true, 1⟩, some ⟨9, true, 2⟩] 0 none [] ∧
    nearbyTickIds (fun _ => none) [⟨1⟩, ⟨2⟩] = nearbyTickIds (fun _ => none) [⟨2⟩] :=
  ⟨by decide,
    C5_failures_skipped.2.1 true 0 20 0 _ [] ⟨9, false, 0⟩ (by decide),
    C5_failures_skipped.2.2 (fun _ => none) ⟨1⟩ [⟨2⟩] rfl⟩

/-! ## Claim theorems for the standard magnitude lookup -/

theorem logb_ten_hundred : Real.logb 10 100 = 2 := by
  rw [show (100 : ℝ) = 10 ^ (2 : ℕ) by norm_num, Real.logb_pow]
  simp [Real.logb_self_eq_one]

/-- C10, counterexample: with a numeric RCS_SIZE of 100 the fallback uses
    the number itself, returning -6.5, while the claimed value formula with
    rcsValue 1.0 for anything but SMALL and LARGE gives -1.5. -/
theorem C10_counterexample :
    getStandardMagnitude true satcatCex 25544 = -6.5 ∧
    (-6.5 : ℝ) ≠ -1.5 - 2.5 * Real.logb 10 (max 0.001 1.0) := by
  constructor
  · have hcat : satcatCex 25544 = some ⟨none, RcsField.num 100⟩ := by
      unfold satcatCex
      simp
    unfold getStandardMagnitude
    rw [hcat]
    show -1.5 - 2.5 * Real.logb 10 (max 0.001 (rcsValueOf (RcsField.num 100))) = -6.5
    rw [show rcsValueOf (RcsField.num 100) = 100 from rfl,
      show max (0.001 : ℝ) 100 = 100 from by norm_num, logb_ten_hundred]
    norm_num
  · rw [show max (0.001 : ℝ) 1.0 = 1 from by norm_num, Real.logb_one]
    norm_num

/-- C10, amended: getStandardMagnitude is total over the reals: 5.0 when
    the catalog is uninitialised or misses the id, the numeric MAG when
    present, else the fallback -1.5 - 2.5 log10(max(0.001, rcsValue)) whose
    logarithm argument is clamped positive, where rcsValue is the numeric
    RCS_SIZE itself when the field is a number, 0.1 for SMALL, 10.0 for
    LARGE and 1.0 otherwise. -/
theorem C10_amended (isInitialized : Bool) (satcat : ℤ → Option SatCatEntry)
    (noradId : ℤ) :
    (isInitialized = false → getStandardMagnitude isInitialized satcat noradId = 5.0) ∧
    (satcat noradId = none → getStandardMagnitude isInitialized satcat noradId = 5.0) ∧
    (∀ e m, isInitialized = true → satcat noradId = some e → e.MAG = some m →
      getStandardMagnitude isInitialized satcat noradId = m) ∧
    (∀ e, isInitialized = true → satcat noradId = some e → e.MAG = none →
      getStandardMagnitude isInitialized satcat noradId =
        -1.5 - 2.5 * Real.logb 10 (max 0.001 (rcsValueOf e.RCS_SIZE)) ∧
      (0 : ℝ) < max 0.001 (rcsValueOf e.RCS_SIZE)) ∧
    (∀ v, rcsValueOf (RcsField.num v) = v) ∧
    rcsValueOf (RcsField.str "SMALL") = 0.1 ∧
    rcsValueOf (RcsField.str "LARGE") = 10.0 ∧
    (∀ sv, sv ≠ "SMALL" → sv ≠ "LARGE" → rcsValueOf (RcsField.str sv) = 1.0) ∧
    rcsValueOf RcsField.absent = 1.0 := by
  refine ⟨?_, ?_, ?_, ?_, ?_, ?_, ?_, ?_, ?_⟩
  · intro h
    rw [h]
    rfl
  · intro h
    unfold getStandardMagnitude
    rw [h]
    cases isInitialized <;> rfl
  · intro e m h1 h2 h3
    unfold getStandardMagnitude
    rw [h1, h2]
    simp only [h3]
  · intro e h1 h2 h3
    constructor
    · unfold getStandardMagnitude
      rw [h1, h2]
      simp only [h3]
    · exact lt_of_lt_of_le (by norm_num) (le_max_left _ _)
  · intro v
    rfl
  · rfl
  · rfl
  · intro sv h1 h2
    show (if sv = "SMALL" then (0.1 : ℝ) else if sv = "LARGE" then 10.0 else 1.0) = 1.0
    rw [if_neg h1, if_neg h2]
  · rfl

/-- Witness for C10_amended at a concrete catalog. -/
theorem C10_amended_witness :
    satcatCex 25544 = some ⟨none, RcsField.num 100⟩ ∧
    getStandardMagnitude false satcatCex 25544 = 5.0 ∧
    getStandardMagnitude true satcatCex 25544 =
      -1.5 - 2.5 * Real.logb 10 (max 0.001 (rcsValueOf (RcsField.num 100))) ∧
    (0 : ℝ) < max 0.001 (rcsValueOf (RcsField.num 100)) := by
  have hcat : satcatCex 25544 = some ⟨none, RcsField.num 100⟩ := by
    unfold satcatCex
    simp
  refine ⟨hcat, (C10_amended false satcatCex 25544).1 rfl, ?_, ?_⟩
  · exact ((C10_amended true satcatCex 25544).2.2.2.1
      ⟨none, RcsField.num 100⟩ rfl hcat rfl).1
  · exact ((C10_amended true satcatCex 25544).2.2.2.1
      ⟨none, RcsField.num 100⟩ rfl hcat rfl).2

/-! ## Claim theorem for the illumination test -/

/-- The shadow-cylinder identity: the expression of the source equals the
    squared distance from the object to its projection on the earth-sun
    axis whenever the sun vector is not degenerate. -/
theorem perp_identity (s u : Vec3) (h : normSq u ≠ 0) :
    normSq s - dot3 s u ^ 2 / normSq u =
      normSq (vsub s (vscale (dot3 s u / normSq u) u)) := by
  unfold normSq vsub vscale dot3 at *
  field_simp
  ring

/-- C6: the object is reported lit exactly when the sun dot product is
    positive or, the dot product being nonpositive, the squared
    perpendicular distance from the object to the earth-sun axis exceeds
    the squared earth radius 6378.137 km. -/
theorem C6_illumination (sunEciOf : ℝ → Vec3) (satEci : Vec3) (date : ℝ)
    (hsun : normSq (sunEciOf date) ≠ 0) :
    isSatIlluminated sunEciOf satEci date ↔
      (0 < dot3 satEci (sunEciOf date) ∨
        (dot3 satEci (sunEciOf date) ≤ 0 ∧
          6378.137 ^ 2 <
            normSq (vsub satEci
              (vscale (dot3 satEci (sunEciOf date) / normSq (sunEciOf date))
                (sunEciOf date))))) := by
  have hperp := perp_identity satEci (sunEciOf date) hsun
  unfold isSatIlluminated
  by_cases h : 0 < satEci.x * (sunEciOf date).x + satEci.y * (sunEciOf date).y +
      satEci.z * (sunEciOf date).z
  · rw [if_pos h]
    constructor
    · intro _
      exact Or.inl h
    · intro _
      trivial
  · rw [if_neg h]
    rw [← hperp]
    constructor
    · intro hgt
      exact Or.inr ⟨not_lt.mp h, hgt⟩
    · intro hor
      rcases hor with hlt | ⟨_, hgt⟩
      · exact absurd hlt h
      · exact hgt

/-- Witness for C6_illumination at a concrete object and sun position. -/
theorem C6_illumination_witness :
    normSq (⟨1, 0, 0⟩ : Vec3) ≠ 0 ∧
    (isSatIlluminated (fun _ => ⟨1, 0, 0⟩) ⟨0, 7000, 0⟩ 0 ↔
      (0 < dot3 ⟨0, 7000, 0⟩ ((fun _ : ℝ => (⟨1, 0, 0⟩ : Vec3)) 0) ∨
        (dot3 ⟨0, 7000, 0⟩ ((fun _ : ℝ => (⟨1, 0, 0⟩ : Vec3)) 0) ≤ 0 ∧
          6378.137 ^ 2 <
            normSq (vsub ⟨0, 7000, 0⟩
              (vscale (dot3 ⟨0, 7000, 0⟩ ((fun _ : ℝ => (⟨1, 0, 0⟩ : Vec3)) 0) /
                  normSq ((fun _ : ℝ => (⟨1, 0, 0⟩ : Vec3)) 0))
                ((fun _ : ℝ => (⟨1, 0, 0⟩ : Vec3)) 0)))))) :=
  ⟨by unfold normSq; norm_num,
    C6_illumination (fun _ => ⟨1, 0, 0⟩) ⟨0, 7000, 0⟩ 0 (by unfold normSq; norm_num)⟩

/-! ## Claim theorems for the magnitude estimator -/

theorem magPhi_cex : magPhi ⟨0, 0, 0⟩ ⟨1, 0, 0⟩ ⟨0, 1000, 0⟩ = Real.pi / 2 := by
  unfold magPhi dot3 vsub
  norm_num

theorem pf_cex_pos : 0 < phaseFunction (magPhi ⟨0, 0, 0⟩ ⟨1, 0, 0⟩ ⟨0, 1000, 0⟩) := by
  rw [magPhi_cex]
  unfold phaseFunction
  rw [Real.sin_pi_div_two, Real.cos_pi_div_two]
  have hpi := Real.pi_pos
  rw [mul_zero, add_zero]
  positivity

/-- C7, counterexample: a sunlit object with positive phase function seen
    at elevation zero yields null, not the uncorrected magnitude value, so
    the estimator does not return the magnitude formula whenever the
    extinction condition fails. -/
theorem C7_counterexample :
    calculateMagnitudeResult True 5 ⟨0, 0, 0⟩ ⟨1, 0, 0⟩ ⟨0, 1000, 0⟩ 0 none ∧
    ∀ v : ℝ, (none : Option ℝ) ≠ some v := by
  constructor
  · exact Or.inr (Or.inr (Or.inr ⟨trivial, pf_cex_pos, le_refl 0, rfl⟩))
  · intro v h
    cases h

/-- C7, amended: for a sunlit object with positive diffuse-sphere phase
    function, the estimator returns
    M0 + 5 log10(range/1000) - 2.5 log10(phaseFunction) + 0.2 / sin(elevation)
    exactly when elevation is positive, and returns null when the elevation
    is zero or negative: the extinction term is applied only for positive
    elevation, and no uncorrected magnitude is returned otherwise. -/
theorem C7_amended (sunlit : Prop) (M0 : ℝ) (satEci sunEci observerEci : Vec3)
    (elevationRad : ℝ) (r : Option ℝ)
    (hr : calculateMagnitudeResult sunlit M0 satEci sunEci observerEci elevationRad r)
    (hsl : sunlit)
    (hpf : 0 < phaseFunction (magPhi satEci sunEci observerEci)) :
    (0 < elevationRad →
      r = some (magBase M0 satEci sunEci observerEci +
        0.2 * (1 / Real.sin elevationRad))) ∧
    (elevationRad ≤ 0 → r = none) := by
  rcases hr with ⟨hns, _⟩ | ⟨_, hpf0, _⟩ | ⟨_, _, hpos, hsome⟩ | ⟨_, _, hneg, hnone⟩
  · exact absurd hsl hns
  · exact absurd hpf0 (not_le.mpr hpf)
  · exact ⟨fun _ => hsome, fun hle => absurd hpos (not_lt.mpr hle)⟩
  · exact ⟨fun hlt => absurd hlt (not_lt.mpr hneg), fun _ => hnone⟩

/-- Witness for C7_amended at a concrete sunlit object at elevation pi/2. -/
theorem C7_amended_witness :
    calculateMagnitudeResult True 5 ⟨0, 0, 0⟩ ⟨1, 0, 0⟩ ⟨0, 1000, 0⟩ (Real.pi / 2)
      (some (magBase 5 ⟨0, 0, 0⟩ ⟨1, 0, 0⟩ ⟨0, 1000, 0⟩ +
        0.2 * (1 / Real.sin (Real.pi / 2)))) ∧
    ((0 < Real.pi / 2 →
      (some (magBase 5 ⟨0, 0, 0⟩ ⟨1, 0, 0⟩ ⟨0, 1000, 0⟩ +
        0.2 * (1 / Real.sin (Real.pi / 2))) : Option ℝ) =
        some (magBase 5 ⟨0, 0, 0⟩ ⟨1, 0, 0⟩ ⟨0, 1000, 0⟩ +
          0.2 * (1 / Real.sin (Real.pi / 2)))) ∧
    (Real.pi / 2 ≤ 0 →
      (some (magBase 5 ⟨0, 0, 0⟩ ⟨1, 0, 0⟩ ⟨0, 1000, 0⟩ +
        0.2 * (1 / Real.sin (Real.pi / 2))) : Option ℝ) = none)) := by
  have hrel : calculateMagnitudeResult True 5 ⟨0, 0, 0⟩ ⟨1, 0, 0⟩ ⟨0, 1000, 0⟩
      (Real.pi / 2)
      (some (magBase 5 ⟨0, 0, 0⟩ ⟨1, 0, 0⟩ ⟨0, 1000, 0⟩ +
        0.2 * (1 / Real.sin (Real.pi / 2)))) :=
    Or.inr (Or.inr (Or.inl ⟨trivial, pf_cex_pos, by positivity, rfl⟩))
  exact ⟨hrel, C7_amended True 5 ⟨0, 0, 0⟩ ⟨1, 0, 0⟩ ⟨0, 1000, 0⟩ (Real.pi / 2) _
    hrel trivial pf_cex_pos⟩

/-! ## Claim theorems for the boundary clipping -/

theorem calculateDistance_self : calculateDistance 0 0 0 0 = 0 := by
  have hj : jsAtan2 0 1 = 0 := by
    unfold jsAtan2
    rw [if_pos one_pos]
    norm_num [Real.arctan_zero]
  simp only [calculateDistance, degreesToRadians]
  norm_num [Real.sin_zero, Real.cos_zero, Real.sqrt_zero, Real.sqrt_one, hj]

theorem calculateDistance_pole : calculateDistance 90 90 0 0 = 6371 * (Real.pi / 2) := by
  have ha : Real.sin ((0 - 90) * (Real.pi / 180) / 2) *
        Real.sin ((0 - 90) * (Real.pi / 180) / 2) +
      Real.cos (90 * (Real.pi / 180)) * Real.cos (0 * (Real.pi / 180)) *
        Real.sin ((0 - 90) * (Real.pi / 180) / 2) *
        Real.sin ((0 - 90) * (Real.pi / 180) / 2) = 1 / 2 := by
    rw [show ((0 : ℝ) - 90) * (Real.pi / 180) / 2 = -(Real.pi / 4) by ring,
      show (90 : ℝ) * (Real.pi / 180) = Real.pi / 2 by ring,
      show (0 : ℝ) * (Real.pi / 180) = 0 by ring,
      Real.sin_neg, Real.sin_pi_div_four, Real.cos_pi_div_two, Real.cos_zero]
    rw [show -(Real.sqrt 2 / 2) * -(Real.sqrt 2 / 2) =
      Real.sqrt 2 * Real.sqrt 2 / 4 by ring,
      Real.mul_self_sqrt (by norm_num : (0 : ℝ) ≤ 2)]
    ring
  have hsq : (0 : ℝ) < Real.sqrt (1 / 2) := Real.sqrt_pos.mpr (by norm_num)
  have hj : jsAtan2 (Real.sqrt (1 / 2)) (Real.sqrt (1 / 2)) = Real.pi / 4 := by
    unfold jsAtan2
    rw [if_pos hsq, div_self (ne_of_gt hsq), Real.arctan_one]
  simp only [calculateDistance, degreesToRadians]
  rw [ha, show (1 : ℝ) - 1 / 2 = 1 / 2 by norm_num, hj]
  ring

theorem calculateDistance_mid : calculateDistance 45 45 0 0 = 6371 * (Real.pi / 3) := by
  have hs2le : (0 : ℝ) ≤ 2 - Real.sqrt 2 := by
    have h4 : Real.sqrt 2 ≤ 2 := by
      nlinarith [Real.sq_sqrt (show (0 : ℝ) ≤ 2 by norm_num), Real.sqrt_nonneg 2]
    linarith
  have hs2 : Real.sqrt (2 - Real.sqrt 2) * Real.sqrt (2 - Real.sqrt 2) =
      2 - Real.sqrt 2 := Real.mul_self_sqrt hs2le
  have ht2 : Real.sqrt 2 * Real.sqrt 2 = 2 :=
    Real.mul_self_sqrt (by norm_num : (0 : ℝ) ≤ 2)
  have ha : Real.sin ((0 - 45) * (Real.pi / 180) / 2) *
        Real.sin ((0 - 45) * (Real.pi / 180) / 2) +
      Real.cos (45 * (Real.pi / 180)) * Real.cos (0 * (Real.pi / 180)) *
        Real.sin ((0 - 45) * (Real.pi / 180) / 2) *
        Real.sin ((0 - 45) * (Real.pi / 180) / 2) = 1 / 4 := by
    rw [show ((0 : ℝ) - 45) * (Real.pi / 180) / 2 = -(Real.pi / 8) by ring,
      show (45 : ℝ) * (Real.pi / 180) = Real.pi / 4 by ring,
      show (0 : ℝ) * (Real.pi / 180) = 0 by ring,
      Real.sin_neg, Real.sin_pi_div_eight, Real.cos_pi_div_four, Real.cos_zero]
    linear_combination (1 / 4 + Real.sqrt 2 / 8) * hs2 - (1 / 8) * ht2
  have h14 : Real.sqrt (1 / 4) = 1 / 2 := by
    rw [show (1 : ℝ) / 4 = (1 / 2) ^ 2 by norm_num,
      Real.sqrt_sq (by norm_num : (0 : ℝ) ≤ 1 / 2)]
  have h34 : Real.sqrt (1 - 1 / 4) = Real.sqrt 3 / 2 := by
    rw [show (1 : ℝ) - 1 / 4 = 3 * (1 / 2) ^ 2 by norm_num,
      Real.sqrt_mul (by norm_num : (0 : ℝ) ≤ 3),
      Real.sqrt_sq (by norm_num : (0 : ℝ) ≤ 1 / 2)]
    ring
  have h3pos : (0 : ℝ) < Real.sqrt 3 := Real.sqrt_pos.mpr (by norm_num)
  have htan : Real.tan (Real.pi / 6) = 1 / Real.sqrt 3 := by
    rw [Real.tan_eq_sin_div_cos, Real.sin_pi_div_six, Real.cos_pi_div_six]
    rw [div_div_div_comm]
    rw [div_self (by norm_num : (2 : ℝ) ≠ 0), div_one]
  have harctan : Real.arctan (1 / Real.sqrt 3) = Real.pi / 6 := by
    rw [← htan]
    exact Real.arctan_tan (by linarith [Real.pi_pos]) (by linarith [Real.pi_pos])
  have hj : jsAtan2 (1 / 2) (Real.sqrt 3 / 2) = Real.pi / 6 := by
    unfold jsAtan2
    rw [if_pos (div_pos h3pos (by norm_num : (0 : ℝ) < 2))]
    rw [show (1 / 2 : ℝ) / (Real.sqrt 3 / 2) = 1 / Real.sqrt 3 by
      rw [div_div_div_comm, div_self (by norm_num : (2 : ℝ) ≠ 0), div_one]]
    exact harctan
  simp only [calculateDistance, degreesToRadians]
  rw [ha, h14, h34, hj]
  ring

/-- C4, counterexample: for the path from (0, 0) to (90, 90) and the circle
    of radius 6371 pi / 4 around (0, 0), exactly one endpoint distance
    exceeds the radius, the computed crossing point is (45, 45), and its
    great-circle distance from the center is 6371 pi / 3, not the radius:
    the time-linear interpolation does not land on the boundary circle, and
    the gap 6371 pi / 12, about 1668 km, is no numerical tolerance. -/
theorem C4_counterexample :
    calculateDistance 0 0 0 0 < 6371 * (Real.pi / 4) ∧
    6371 * (Real.pi / 4) < calculateDistance 90 90 0 0 ∧
    (getIntersectionPoint ⟨0, 0, 0, ⟨0, 0, 0⟩⟩ ⟨90, 90, 0, ⟨0, 0, 0⟩⟩ (0, 0)
        (6371 * (Real.pi / 4))).lat = 45 ∧
    (getIntersectionPoint ⟨0, 0, 0, ⟨0, 0, 0⟩⟩ ⟨90, 90, 0, ⟨0, 0, 0⟩⟩ (0, 0)
        (6371 * (Real.pi / 4))).lon = 45 ∧
    calculateDistance 45 45 0 0 ≠ 6371 * (Real.pi / 4) := by
  have hd1 := calculateDistance_self
  have hd2 := calculateDistance_pole
  have hd3 := calculateDistance_mid
  have hpi := Real.pi_pos
  refine ⟨?_, ?_, ?_, ?_, ?_⟩
  · rw [hd1]
    positivity
  · rw [hd2]
    nlinarith
  · show (0 : ℝ) + (6371 * (Real.pi / 4) - calculateDistance 0 0 0 0) /
        (calculateDistance 90 90 0 0 - calculateDistance 0 0 0 0) * (90 - 0) = 45
    rw [hd1, hd2, sub_zero, sub_zero]
    have hne : (6371 : ℝ) * (Real.pi / 2) ≠ 0 := by positivity
    field_simp
    ring
  · show (0 : ℝ) + (6371 * (Real.pi / 4) - calculateDistance 0 0 0 0) /
        (calculateDistance 90 90 0 0 - calculateDistance 0 0 0 0) * (90 - 0) = 45
    rw [hd1, hd2, sub_zero, sub_zero]
    have hne : (6371 : ℝ) * (Real.pi / 2) ≠ 0 := by positivity
    field_simp
    ring
  · rw [hd3]
    intro h
    have h2 := mul_left_cancel₀ (by norm_num : (6371 : ℝ) ≠ 0) h
    nlinarith

/-- C4, amended: the parameter t = (radius - d1) / (d2 - d1) is exactly the
    linear interpolation weight at which the interpolated endpoint distance
    d1 + t (d2 - d1) equals the radius, and the returned crossing point is
    the coordinatewise linear interpolation of the two sample points at t;
    the great-circle distance of that point from the center equals the
    radius only approximately, for closely spaced sample points (the
    counterexample shows a widely spaced pair landing 6371 pi / 12 km off
    the circle). -/
theorem C4_amended (p1 p2 : GeoPoint) (center : ℝ × ℝ) (radius : ℝ)
    (hne : calculateDistance p1.lat p1.lon center.1 center.2 ≠
      calculateDistance p2.lat p2.lon center.1 center.2) :
    calculateDistance p1.lat p1.lon center.1 center.2 +
      (radius - calculateDistance p1.lat p1.lon center.1 center.2) /
        (calculateDistance p2.lat p2.lon center.1 center.2 -
          calculateDistance p1.lat p1.lon center.1 center.2) *
        (calculateDistance p2.lat p2.lon center.1 center.2 -
          calculateDistance p1.lat p1.lon center.1 center.2) = radius ∧
    (getIntersectionPoint p1 p2 center radius).lat =
      p1.lat + (radius - calculateDistance p1.lat p1.lon center.1 center.2) /
        (calculateDistance p2.lat p2.lon center.1 center.2 -
          calculateDistance p1.lat p1.lon center.1 center.2) * (p2.lat - p1.lat) ∧
    (getIntersectionPoint p1 p2 center radius).lon =
      p1.lon + (radius - calculateDistance p1.lat p1.lon center.1 center.2) /
        (calculateDistance p2.lat p2.lon center.1 center.2 -
          calculateDistance p1.lat p1.lon center.1 center.2) * (p2.lon - p1.lon) ∧
    (getIntersectionPoint p1 p2 center radius).time =
      p1.time + (radius - calculateDistance p1.lat p1.lon center.1 center.2) /
        (calculateDistance p2.lat p2.lon center.1 center.2 -
          calculateDistance p1.lat p1.lon center.1 center.2) *
        (p2.time - p1.time) := by
  have hne2 : calculateDistance p2.lat p2.lon center.1 center.2 -
      calculateDistance p1.lat p1.lon center.1 center.2 ≠ 0 :=
    sub_ne_zero_of_ne (Ne.symm hne)
  refine ⟨?_, rfl, rfl, rfl⟩
  rw [div_mul_cancel₀ _ hne2]
  ring

/-- Witness for C4_amended at the counterexample configuration. -/
theorem C4_amended_witness :
    calculateDistance 0 0 0 0 ≠ calculateDistance 90 90 0 0 ∧
    (calculateDistance 0 0 0 0 +
      (6371 * (Real.pi / 4) - calculateDistance 0 0 0 0) /
        (calculateDistance 90 90 0 0 - calculateDistance 0 0 0 0) *
        (calculateDistance 90 90 0 0 - calculateDistance 0 0 0 0)
      = 6371 * (Real.pi / 4) ∧
    (getIntersectionPoint ⟨0, 0, 0, ⟨0, 0, 0⟩⟩ ⟨90, 90, 0, ⟨0, 0, 0⟩⟩ (0, 0)
        (6371 * (Real.pi / 4))).lat =
      0 + (6371 * (Real.pi / 4) - calculateDistance 0 0 0 0) /
        (calculateDistance 90 90 0 0 - calculateDistance 0 0 0 0) * (90 - 0) ∧
    (getIntersectionPoint ⟨0, 0, 0, ⟨0, 0, 0⟩⟩ ⟨90, 90, 0, ⟨0, 0, 0⟩⟩ (0, 0)
        (6371 * (Real.pi / 4))).lon =
      0 + (6371 * (Real.pi / 4) - calculateDistance 0 0 0 0) /
        (calculateDistance 90 90 0 0 - calculateDistance 0 0 0 0) * (90 - 0) ∧
    (getIntersectionPoint ⟨0, 0, 0, ⟨0, 0, 0⟩⟩ ⟨90, 90, 0, ⟨0, 0, 0⟩⟩ (0, 0)
        (6371 * (Real.pi / 4))).time =
      0 + (6371 * (Real.pi / 4) - calculateDistance 0 0 0 0) /
        (calculateDistance 90 90 0 0 - calculateDistance 0 0 0 0) * (0 - 0)) := by
  have hne : calculateDistance 0 0 0 0 ≠ calculateDistance 90 90 0 0 := by
    rw [calculateDistance_self, calculateDistance_pole]
    have hpi := Real.pi_pos
    intro h
    nlinarith
  exact ⟨hne, C4_amended ⟨0, 0, 0, ⟨0, 0, 0⟩⟩ ⟨90, 90, 0, ⟨0, 0, 0⟩⟩ (0, 0)
    (6371 * (Real.pi / 4)) hne⟩

end SatArg
